import Mathlib

/-!
Verification of the mongoengine change-tracking and persistence-delta core.

The repository ships only `mongoengine/connection.py` together with the test
suite (`tests/document.py`, `tests/connection.py`); the document, delta and
cascade engine itself is exercised by the tests but its source module is not
present.  Those components are therefore modelled from the specification
(marked `Modelled from the spec:` below), while the connection registry is
embedded directly from `mongoengine/connection.py`.
-/

/-! # Store value model (delta engine)

Modelled from the spec: store documents are mappings from storage-path strings
to values of types null, boolean, integer, string, ordered sequence, nested
mapping, or an embedded record.  An embedded record carries its qualified type
name (dot-joined ancestor chain), its polymorphism flag, its own changed-path
set, and its field map keyed by storage name. -/

inductive Value where
  | vnull : Value
  | vbool : Bool → Value
  | vint : Int → Value
  | vstr : String → Value
  | vlist : List Value → Value
  | vdict : List (String × Value) → Value
  | vrec : String → Bool → List (List String) → List (String × Value) → Value

/-- A storage path: the dot-joined path of spec section 4.2, kept as its list
of storage-name segments. -/
abbrev StoragePath := List String

/-- Dot-join a storage path for the keys of the computed delta. -/
def joinPath (p : StoragePath) : String := String.intercalate "." p

/-- Modelled from the spec: an empty sequence or empty mapping is the
"cleared-to-empty" collection value that the delta computer records as an
unset rather than a set (spec section 4.3). -/
def isEmptyCollection : Value → Bool
  | .vlist [] => true
  | .vdict [] => true
  | _ => false

/-- `p` is a proper ancestor of `q`: `q` lies beneath `p` in storage-path
terms (spec section 4.2, "more-specific paths already recorded beneath it"). -/
def properAncestorOf (p q : StoragePath) : Bool := decide (p <+: q ∧ p ≠ q)

/-- Modelled from the spec: `mark_changed` inserts the path into
`changed_paths`, deduplicated by exact path; marking a path removes any
more-specific paths already recorded beneath it (spec section 4.2). -/
def markChanged (paths : List StoragePath) (p : StoragePath) : List StoragePath :=
  if p ∈ paths then paths
  else paths.filter (fun q => !(properAncestorOf p q)) ++ [p]

/-- Modelled from the spec: the delta computer's precedence rule — when both a
path and one of its descendants are present, the shallower path wins and the
descendant entries are discarded (spec section 4.3). -/
def effectivePaths (paths : List StoragePath) : List StoragePath :=
  paths.filter (fun p => !(paths.any (fun a => properAncestorOf a p)))

/-- Look up a field by storage name in a record's or mapping's field list. -/
def lookupField (k : String) : List (String × Value) → Option Value
  | [] => none
  | f :: fs => if f.1 = k then some f.2 else lookupField k fs

/-- Replace (or append) the binding of storage name `k` in a field list. -/
def updateField (k : String) (v : Value) : List (String × Value) → List (String × Value)
  | [] => [(k, v)]
  | f :: fs => if f.1 = k then (k, v) :: fs else f :: updateField k v fs

mutual
/-- Modelled from the spec: serialization to the store's native value
representation.  A record serializes recursively to a mapping of all of its
own fields — not just its own changed set — and, when its type is
polymorphic, additionally carries the `_cls` discriminator listing its full
ancestor chain (spec sections 4.3 and 6). -/
def serialize : Value → Value
  | .vnull => .vnull
  | .vbool b => .vbool b
  | .vint n => .vint n
  | .vstr s => .vstr s
  | .vlist xs => .vlist (serializeList xs)
  | .vdict fs => .vdict (serializeFields fs)
  | .vrec cls poly _changed fs =>
      .vdict (if poly then ("_cls", .vstr cls) :: serializeFields fs else serializeFields fs)

/-- Serialize every element of a sequence value. -/
def serializeList : List Value → List Value
  | [] => []
  | x :: xs => serialize x :: serializeList xs

/-- Serialize every field value of a mapping or record. -/
def serializeFields : List (String × Value) → List (String × Value)
  | [] => []
  | (k, v) :: fs => (k, serialize v) :: serializeFields fs
end

/-- Modelled from the spec: resolve the current value at a path by
storage-name traversal from the root, crossing embedded-record and mapping
boundaries (spec section 4.3). -/
def getAtSegs : Value → List String → Option Value
  | v, [] => some v
  | .vrec _ _ _ fs, k :: rest =>
    match lookupField k fs with
    | some v2 => getAtSegs v2 rest
    | none => none
  | .vdict fs, k :: rest =>
    match lookupField k fs with
    | some v2 => getAtSegs v2 rest
    | none => none
  | _, _ :: _ => none

/-- Modelled from the spec: write a value at a storage path, descending
through embedded records and mappings; each embedded record crossed on the
way records the remaining path in its own changed-path set, the local mark of
spec section 4.2's upward propagation walk. -/
def setFieldsAtPath : List (String × Value) → List String → Value → List (String × Value)
  | fs, [], _ => fs
  | fs, k :: rest, v =>
    match rest with
    | [] => updateField k v fs
    | _ :: _ =>
      match lookupField k fs with
      | some (.vrec c pl ch efs) =>
          updateField k (.vrec c pl (markChanged ch rest) (setFieldsAtPath efs rest v)) fs
      | some (.vdict efs) => updateField k (.vdict (setFieldsAtPath efs rest v)) fs
      | _ => fs

/-- Modelled from the spec: a root record instance — qualified type name,
polymorphism flag, field-value map keyed by storage name, and the set of
changed storage paths maintained by the dirty tracker (spec section 3,
"Record Instance"). -/
structure Record where
  cls : String
  poly : Bool
  fields : List (String × Value)
  changed_paths : List StoragePath

/-- The record viewed as a store value, the root of path traversal. -/
def rootValue (r : Record) : Value := .vrec r.cls r.poly r.changed_paths r.fields

/-- Modelled from the spec: a field assignment `r.f = v` addressed by its
storage path — the dirty tracker updates the value at the path and records
the dot-joined storage path in the root's `changed_paths` (spec section 4.2);
equality with the previous value is not checked. -/
def assign (r : Record) (p : StoragePath) (v : Value) : Record :=
  { r with fields := setFieldsAtPath r.fields p v,
           changed_paths := markChanged r.changed_paths p }

/-- Modelled from the spec: fresh hydration from a stored document produces a
clean instance — `changed_paths` is empty (spec section 3, lifecycle). -/
def hydrate (cls : String) (poly : Bool) (fields : List (String × Value)) : Record :=
  { cls := cls, poly := poly, fields := fields, changed_paths := [] }

/-- Modelled from the spec: `compute_delta` walks the (precedence-filtered)
changed paths, resolves each path's current value by storage-name traversal
from the root, and records the path in `unset_ops` when the value is absent
or an empty collection, otherwise in `set_ops` with the value serialized
(spec section 4.3).  Unset entries carry the sentinel `1` used by the store's
unset operator. -/
def compute_delta (r : Record) : List (String × Value) × List (String × Value) :=
  (effectivePaths r.changed_paths).foldl
    (fun acc p =>
      match getAtSegs (rootValue r) p with
      | some v =>
        if isEmptyCollection v then (acc.1, acc.2 ++ [(joinPath p, Value.vint 1)])
        else (acc.1 ++ [(joinPath p, serialize v)], acc.2)
      | none => (acc.1, acc.2 ++ [(joinPath p, Value.vint 1)]))
    ([], [])

/-! # Reference graph and cascade engine

Modelled from the spec (section 4.5): the delete orchestration scans every
registered reference-field declaration whose delete rule is not NONE, queries
the store for referencing documents, checks every DENY rule before any
mutation, and only then commits the deletion of the target together with the
transitively CASCADE-collected documents, nullifying NULLIFY-ruled references.
Scalar reference fields are modelled (the list-valued PULL rule is outside the
claims verified here). -/

inductive DeleteRule where
  | NONE : DeleteRule
  | DENY : DeleteRule
  | NULLIFY : DeleteRule
  | CASCADE : DeleteRule
  | PULL : DeleteRule
deriving DecidableEq

/-- Modelled from the spec: a reference-field declaration of a registered
type — the declaring type's collection, the field's storage name, the target
type's collection and the declared delete rule (spec sections 3 and 4.5). -/
structure RefFieldDecl where
  owner_collection : String
  field_name : String
  target_collection : String
  rule : DeleteRule
deriving DecidableEq

/-- A stored top-level document: its collection, identifier, and its scalar
reference fields (storage name to referenced identifier, absent when
nullified). -/
structure StoredDoc where
  collection : String
  doc_id : Nat
  refs : List (String × Option Nat)
deriving DecidableEq

/-- A document key: (collection name, identifier). -/
abbrev DocKey := String × Nat

/-- The key of a stored document. -/
def StoredDoc.key (d : StoredDoc) : DocKey := (d.collection, d.doc_id)

/-- Does document `d` reference identifier `tid` through the field named
`fname`? -/
def refersTo (fname : String) (tid : Nat) (d : StoredDoc) : Bool :=
  d.refs.any (fun kv => decide (kv.1 = fname ∧ kv.2 = some tid))

/-- Does CASCADE-ruled declaration `decl` make document `d` a dependent of
some document key already collected in `s`? -/
def cascadeMatches (decl : RefFieldDecl) (s : List DocKey) (d : StoredDoc) : Bool :=
  decide (decl.rule = .CASCADE) && decide (decl.owner_collection = d.collection) &&
    s.any (fun k => decide (k.1 = decl.target_collection) && refersTo decl.field_name k.2 d)

/-- One scan round of the cascade engine: add the keys of all store documents
referencing an already-collected document through a CASCADE-ruled field. -/
def cascadeStep (schema : List RefFieldDecl) (store : List StoredDoc)
    (s : List DocKey) : List DocKey :=
  s ++ (store.filter (fun d => !(decide (d.key ∈ s)) &&
          schema.any (fun decl => cascadeMatches decl s d))).map StoredDoc.key

/-- Iterate the cascade scan; the fuel plays the role of the spec's guard
against unbounded recursive cascading (spec section 4.5, rule CASCADE). -/
def cascadeIter (schema : List RefFieldDecl) (store : List StoredDoc) :
    Nat → List DocKey → List DocKey
  | 0, s => s
  | n+1, s => cascadeIter schema store n (cascadeStep schema store s)

/-- Modelled from the spec: the transitive CASCADE closure of the delete
target — every document reachable from the target through CASCADE-ruled
references; `store.length` rounds saturate any closure over a finite store. -/
def cascadeClosure (schema : List RefFieldDecl) (store : List StoredDoc)
    (k : DocKey) : List DocKey :=
  cascadeIter schema store store.length [k]

/-- Modelled from the spec: the DENY check of phase 2 — some DENY-ruled
declaration has a document in the store referencing a document scheduled for
deletion (spec section 4.5, rule DENY). -/
def denyViolated (schema : List RefFieldDecl) (store : List StoredDoc)
    (s : List DocKey) : Bool :=
  schema.any (fun decl => decide (decl.rule = .DENY) && s.any (fun k =>
    decide (k.1 = decl.target_collection) && store.any (fun d =>
      decide (d.collection = decl.owner_collection) && refersTo decl.field_name k.2 d)))

/-- Modelled from the spec: clear (set to absent) every NULLIFY-ruled
reference of `d` that points at a deleted document (spec section 4.5, rule
NULLIFY). -/
def nullifyRefs (schema : List RefFieldDecl) (s : List DocKey) (d : StoredDoc) : StoredDoc :=
  { d with refs := d.refs.map (fun kv =>
      if schema.any (fun decl => decide (decl.rule = .NULLIFY) &&
          decide (decl.owner_collection = d.collection) &&
          decide (decl.field_name = kv.1) &&
          (match kv.2 with
           | some i => decide ((decl.target_collection, i) ∈ s)
           | none => false))
      then (kv.1, none) else kv) }

/-- The error raised when a DENY rule blocks a deletion (spec section 7). -/
inductive DeleteError where
  | ReferentialIntegrityError : DeleteError
deriving DecidableEq

/-- Modelled from the spec: the three-phase delete orchestration — scan the
CASCADE closure, check every DENY rule before any mutation, and only on
success commit: remove all collected documents and nullify NULLIFY-ruled
references to them.  On a DENY hit the store is left untouched (spec section
4.5). -/
def runDelete (schema : List RefFieldDecl) (store : List StoredDoc) (k : DocKey) :
    Except DeleteError (List StoredDoc) :=
  let s := cascadeClosure schema store k
  if denyViolated schema store s then .error .ReferentialIntegrityError
  else .ok ((store.filter (fun d => !(decide (d.key ∈ s)))).map (nullifyRefs schema s))

/-- The stored state after a delete invocation: unchanged when the delete was
aborted with an error, otherwise the committed result. -/
def deleteResultStore (schema : List RefFieldDecl) (store : List StoredDoc)
    (k : DocKey) : List StoredDoc :=
  match runDelete schema store k with
  | .error _ => store
  | .ok st => st

/-! # Record type registry

Modelled from the spec (section 4.1): `register` validates a type descriptor
at registration time and fails with the duplicate-storage-name schema error
when two of its fields collide on storage name; no instance of the type can
exist before its descriptor registers successfully. -/

/-- Modelled from the spec: a field descriptor — logical name, storage name,
required flag and primary flag (spec section 3, "Field Descriptor"). -/
structure FieldDescriptor where
  field_name : String
  storage_name : String
  required : Bool
  primary : Bool
deriving DecidableEq

/-- Registration-time schema errors (spec sections 4.1 and 7). -/
inductive SchemaDefinitionError where
  | DuplicateStorageNameError : SchemaDefinitionError
  | InheritanceNotAllowedError : SchemaDefinitionError
  | InvalidDeleteRuleError : SchemaDefinitionError
deriving DecidableEq

/-- A record type descriptor: logical type name and its merged field list. -/
structure TypeDescriptor where
  type_name : String
  fields : List FieldDescriptor
deriving DecidableEq

/-- Do two distinct fields of the list share a storage name? -/
def hasDuplicateStorageName : List FieldDescriptor → Bool
  | [] => false
  | f :: fs =>
    fs.any (fun g => decide (g.storage_name = f.storage_name)) || hasDuplicateStorageName fs

/-- Modelled from the spec: `register(type_descriptor)` fails with the
duplicate-storage-name error when two fields collide on storage name (spec
section 4.1). -/
def register (td : TypeDescriptor) : Except SchemaDefinitionError TypeDescriptor :=
  if hasDuplicateStorageName td.fields then .error .DuplicateStorageNameError
  else .ok td

/-! # Polymorphic queries

Modelled from the spec (sections 3 and 4.1): subtypes of a polymorphic type
share the physical collection and are disambiguated by a stored discriminator
holding the full ancestor chain; a query on a base type expands to the
discriminator set of the base and all its registered subtypes. -/

/-- A qualified type: the ordered ancestor chain of short type names. -/
abbrev TypeChain := List String

/-- A stored polymorphic document: its discriminator (ancestor chain of its
exact type) and its identifier; hydration yields an instance of exactly the
discriminated type. -/
structure PolyDoc where
  discriminator : TypeChain
  stored_id : Nat
deriving DecidableEq

/-- Modelled from the spec: `subtypes_of` — the registered types at or below
`base` in the ancestor-chain order (spec section 4.1). -/
def subtypesOf (registry : List TypeChain) (base : TypeChain) : List TypeChain :=
  registry.filter (fun c => decide (base <+: c))

/-- Modelled from the spec: a query against type `base` expands into a
discriminator-set filter covering `base` and all registered subtypes, and
returns the matching stored documents, each carrying its exact stored
discriminated type (spec sections 4.1 and 8). -/
def polymorphicQuery (registry : List TypeChain) (store : List PolyDoc)
    (base : TypeChain) : List PolyDoc :=
  store.filter (fun d => decide (d.discriminator ∈ subtypesOf registry base))

/-! # Direct update operation

Modelled from the spec (section 7): `OperationError` is raised for invalid
persistence calls, among them `update()` with no changed paths, and a
not-found response for an expected-existing identifier. -/

/-- Errors of invalid persistence calls (spec section 7). -/
inductive OperationError where
  | EmptyUpdateError : OperationError
  | NotSavedError : OperationError
  | DocumentVanishedError : OperationError
deriving DecidableEq

/-- Apply a (set_ops, unset_ops) pair to one stored document's field map. -/
def applyUpdateOps (doc : List (String × Value)) (set_ops : List (String × Value))
    (unset_ops : List String) : List (String × Value) :=
  unset_ops.foldl (fun d p => d.filter (fun kv => decide (kv.1 ≠ p)))
    (set_ops.foldl (fun d kv => updateField kv.1 kv.2 d) doc)

/-- Modelled from the spec: the direct update operation on a saved record —
with no update operations supplied it raises the empty-update operation
error; a vanished identifier raises the translated operation error; otherwise
the set/unset pair is applied atomically to the addressed document (spec
sections 6 and 7). -/
def updateDocument (store : List (Nat × List (String × Value))) (target_id : Nat)
    (set_ops : List (String × Value)) (unset_ops : List String) :
    Except OperationError (List (Nat × List (String × Value))) :=
  if set_ops.isEmpty && unset_ops.isEmpty then .error .EmptyUpdateError
  else if store.any (fun e => decide (e.1 = target_id)) then
    .ok (store.map (fun e =>
      if e.1 = target_id then (e.1, applyUpdateOps e.2 set_ops unset_ops) else e))
  else .error .DocumentVanishedError

/-- The stored state after an update invocation: unchanged when the update
raised an error. -/
def updateResultStore (store : List (Nat × List (String × Value))) (target_id : Nat)
    (set_ops : List (String × Value)) (unset_ops : List String) :
    List (Nat × List (String × Value)) :=
  match updateDocument store target_id set_ops unset_ops with
  | .error _ => store
  | .ok st => st

/-! # Connection registry

Embedded from `mongoengine/connection.py`.  The pymongo driver is external:
constructing a driver connection from registered settings is modelled as the
opaque, always-succeeding wrapping of those settings (the claims verified
here concern the alias bookkeeping, not the wire protocol). -/

/-- `DEFAULT_CONNECTION_NAME` of `connection.py`. -/
def DEFAULT_CONNECTION_NAME : String := "default"

/-- The settings dictionary built by `register_connection` (non-URI branch of
`connection.py`). -/
structure ConnectionSettings where
  host : String
  port : Nat
  is_slave : Bool
  slaves : List String
  username : Option String
  password : Option String
  read_preference : Bool
deriving DecidableEq

/-- An open driver connection, opaque except for the settings it was created
from (`connection_class(**conn_settings)` in `connection.py`). -/
structure Connection where
  conn_settings : ConnectionSettings
deriving DecidableEq

/-- The module-level state of `connection.py`: `_connection_settings`,
`_connections` and `_dbs`, each keyed by alias. -/
structure ConnectionState where
  connection_settings : List (String × ConnectionSettings)
  connections : List (String × Connection)
  dbs : List (String × String)
deriving DecidableEq

/-- The `ConnectionError` exception of `connection.py`, carrying its
message. -/
inductive ConnectionError where
  | mk : String → ConnectionError
deriving DecidableEq

/-- `register_connection` of `connection.py` (non-URI branch): record the
settings under the alias. -/
def register_connection (st : ConnectionState) (conn_alias : String)
    (settings : ConnectionSettings) : ConnectionState :=
  { st with connection_settings := (conn_alias, settings) :: st.connection_settings }

/-- The message of the undefined-alias `ConnectionError` in `get_connection`;
the source never interpolates the alias into the `%s` placeholder, which is
preserved here. -/
def notDefinedMessage (conn_alias : String) : String :=
  if conn_alias = DEFAULT_CONNECTION_NAME then "You have not defined a default connection"
  else "Connection with alias \"%s\" has not been defined"

/-- `disconnect` of `connection.py`: drop the alias from `_connections` and
`_dbs` (the driver-side `disconnect`/`close` calls are external effects). -/
def disconnect (st : ConnectionState) (conn_alias : String) : ConnectionState :=
  { st with connections := st.connections.filter (fun e => decide (e.1 ≠ conn_alias)),
            dbs := st.dbs.filter (fun e => decide (e.1 ≠ conn_alias)) }

/-- `get_connection` of `connection.py`: after an optional reconnect, return
the already-open connection for the alias; otherwise raise `ConnectionError`
when no settings are registered for the alias, and otherwise open (and cache)
a connection built from the registered settings. -/
def get_connection (st : ConnectionState) (conn_alias : String) (reconnect : Bool) :
    Except ConnectionError Connection × ConnectionState :=
  let st1 := if reconnect then disconnect st conn_alias else st
  match st1.connections.lookup conn_alias with
  | some c => (.ok c, st1)
  | none =>
    match st1.connection_settings.lookup conn_alias with
    | none => (.error (.mk (notDefinedMessage conn_alias)), st1)
    | some s => (.ok ⟨s⟩, { st1 with connections := (conn_alias, ⟨s⟩) :: st1.connections })

/-! ## Delta-engine lemmas -/

theorem lookupField_updateField_self (k : String) (v : Value) (fs : List (String × Value)) :
    lookupField k (updateField k v fs) = some v := by
  induction fs with
  | nil => simp [updateField, lookupField]
  | cons f fs ih =>
    by_cases h : f.1 = k
    · simp [updateField, lookupField, h]
    · simp [updateField, lookupField, h, ih]

theorem properAncestorOf_self (p : StoragePath) : properAncestorOf p p = false := by
  simp [properAncestorOf]

theorem markChanged_nil (p : StoragePath) : markChanged [] p = [p] := by
  simp [markChanged]

theorem effectivePaths_single (p : StoragePath) : effectivePaths [p] = [p] := by
  simp [effectivePaths, properAncestorOf_self]

theorem compute_delta_changed_single (r : Record) (p : StoragePath) (v : Value)
    (hch : r.changed_paths = [p])
    (hget : getAtSegs (rootValue r) p = some v) :
    compute_delta r =
      if isEmptyCollection v then ([], [(joinPath p, Value.vint 1)])
      else ([(joinPath p, serialize v)], []) := by
  unfold compute_delta
  rw [hch, effectivePaths_single]
  simp [hget]

theorem compute_delta_assign_top (r : Record) (p : String) (v : Value)
    (hclean : r.changed_paths = []) :
    compute_delta (assign r [p] v) =
      if isEmptyCollection v then ([], [(p, Value.vint 1)])
      else ([(p, serialize v)], []) := by
  have hch : (assign r [p] v).changed_paths = [[p]] := by
    simp [assign, hclean, markChanged_nil]
  have hget : getAtSegs (rootValue (assign r [p] v)) [p] = some v := by
    simp [rootValue, assign, getAtSegs, setFieldsAtPath, lookupField_updateField_self]
  have h := compute_delta_changed_single _ _ v hch hget
  have hj : joinPath [p] = p := rfl
  rw [hj] at h
  exact h

/-- C1: for every record instance `r` and field with storage name `p`, after
the assignment `r.f = v` on a clean instance, `compute_delta` maps `p` to
`v`'s serialized form in `set_ops`, unless `v` is an empty collection (empty
sequence or empty mapping), in which case `p` appears in `unset_ops` instead
of `set_ops` and not in `set_ops`. -/
theorem delta_after_field_assignment (r : Record) (p : String) (v : Value)
    (hclean : r.changed_paths = []) :
    compute_delta (assign r [p] v) =
      if isEmptyCollection v then ([], [(p, Value.vint 1)])
      else ([(p, serialize v)], []) :=
  compute_delta_assign_top r p v hclean

theorem delta_after_field_assignment_witness :
    compute_delta (assign (hydrate "Doc" true [("dict_field", Value.vnull)]) ["dict_field"]
        (Value.vdict [("hello", Value.vstr "world")])) =
      ([("dict_field", Value.vdict [("hello", Value.vstr "world")])], [])
    ∧ compute_delta (assign (hydrate "Doc" true [("dict_field", Value.vnull)]) ["dict_field"]
        (Value.vdict [])) =
      ([], [("dict_field", Value.vint 1)]) :=
  ⟨delta_after_field_assignment _ "dict_field" _ rfl,
   delta_after_field_assignment _ "dict_field" _ rfl⟩

/-- C6: for every record freshly hydrated from the store and not mutated
since, `compute_delta` returns the empty pair and the changed-path set is
empty. -/
theorem delta_of_fresh_hydrated (cls : String) (poly : Bool)
    (fields : List (String × Value)) :
    compute_delta (hydrate cls poly fields) = ([], [])
    ∧ (hydrate cls poly fields).changed_paths = [] := by
  constructor
  · simp [compute_delta, hydrate, effectivePaths]
  · rfl

/-- C2: for every record with an embedded sub-record at storage name `e`,
mutating only the sub-field `s` of the embedded record yields exactly the
dotted sub-path operation: `set_ops = {e.s : serialized v}` with no other set
or unset entries (no re-serialization of the siblings), and the same dotted
sub-path moves to `unset_ops` when the new value is an empty collection. -/
theorem delta_after_subfield_assignment (r : Record) (e s c : String) (pl : Bool)
    (ch : List StoragePath) (efs : List (String × Value)) (v : Value)
    (hclean : r.changed_paths = [])
    (hemb : lookupField e r.fields = some (.vrec c pl ch efs)) :
    compute_delta (assign r [e, s] v) =
      if isEmptyCollection v then ([], [(e ++ "." ++ s, Value.vint 1)])
      else ([(e ++ "." ++ s, serialize v)], []) := by
  have hch2 : (assign r [e, s] v).changed_paths = [[e, s]] := by
    simp [assign, hclean, markChanged_nil]
  have hget : getAtSegs (rootValue (assign r [e, s] v)) [e, s] = some v := by
    simp [rootValue, assign, setFieldsAtPath, hemb, getAtSegs, lookupField_updateField_self]
  have h := compute_delta_changed_single _ _ v hch2 hget
  have hj : joinPath [e, s] = e ++ "." ++ s := rfl
  rw [hj] at h
  exact h

theorem delta_after_subfield_assignment_witness :
    compute_delta (assign
        (hydrate "Doc" true [("embedded_field",
          Value.vrec "Embedded" true []
            [("string_field", Value.vstr "a"), ("int_field", Value.vint 1)])])
        ["embedded_field", "string_field"] (Value.vstr "b")) =
      ([("embedded_field.string_field", Value.vstr "b")], [])
    ∧ compute_delta (assign
        (hydrate "Doc" true [("embedded_field",
          Value.vrec "Embedded" true []
            [("string_field", Value.vstr "a"),
             ("dict_field", Value.vdict [("hello", Value.vstr "world")])])])
        ["embedded_field", "dict_field"] (Value.vdict [])) =
      ([], [("embedded_field.dict_field", Value.vint 1)]) :=
  ⟨delta_after_subfield_assignment _ "embedded_field" "string_field" "Embedded" true [] _ _
      rfl rfl,
   delta_after_subfield_assignment _ "embedded_field" "dict_field" "Embedded" true [] _ _
      rfl rfl⟩

/-- C5: when a freshly assigned field value is itself an embedded record,
`compute_delta` serializes every field of that record — independently of the
record's own changed-path set `ch` — under the field's storage path, and the
serialization carries the `_cls` discriminator with the ancestor chain
exactly when the record's type is polymorphic. -/
theorem delta_of_fresh_embedded_assignment (r : Record) (p c : String) (pl : Bool)
    (ch : List StoragePath) (efs : List (String × Value))
    (hclean : r.changed_paths = []) :
    compute_delta (assign r [p] (.vrec c pl ch efs)) =
      ([(p, .vdict (if pl then ("_cls", .vstr c) :: serializeFields efs
                    else serializeFields efs))], []) := by
  have h := compute_delta_assign_top r p (.vrec c pl ch efs) hclean
  simpa [serialize, isEmptyCollection] using h

theorem delta_of_fresh_embedded_assignment_witness :
    compute_delta (assign (hydrate "Doc" true [("embedded_field", Value.vnull)])
        ["embedded_field"]
        (Value.vrec "Embedded" true [["string_field"]]
          [("string_field", Value.vstr "hello"), ("int_field", Value.vint 1),
           ("dict_field", Value.vdict [("hello", Value.vstr "world")]),
           ("list_field", Value.vlist
              [Value.vstr "1", Value.vint 2,
               Value.vdict [("hello", Value.vstr "world")]])])) =
      ([("embedded_field", Value.vdict
          [("_cls", Value.vstr "Embedded"),
           ("string_field", Value.vstr "hello"), ("int_field", Value.vint 1),
           ("dict_field", Value.vdict [("hello", Value.vstr "world")]),
           ("list_field", Value.vlist
              [Value.vstr "1", Value.vint 2,
               Value.vdict [("hello", Value.vstr "world")]])])], []) :=
  delta_of_fresh_embedded_assignment _ "embedded_field" "Embedded" true [["string_field"]] _ rfl

/-! ## Cascade-engine lemmas -/

theorem mem_cascadeStep_of_mem (schema : List RefFieldDecl) (store : List StoredDoc)
    (s : List DocKey) (x : DocKey) (hx : x ∈ s) : x ∈ cascadeStep schema store s :=
  List.mem_append_left _ hx

theorem mem_cascadeIter_of_mem (schema : List RefFieldDecl) (store : List StoredDoc)
    (n : Nat) (s : List DocKey) (x : DocKey) (hx : x ∈ s) :
    x ∈ cascadeIter schema store n s := by
  induction n generalizing s with
  | zero => exact hx
  | succ n ih => exact ih _ (mem_cascadeStep_of_mem _ _ _ _ hx)

theorem start_mem_cascadeClosure (schema : List RefFieldDecl) (store : List StoredDoc)
    (k : DocKey) : k ∈ cascadeClosure schema store k :=
  mem_cascadeIter_of_mem _ _ _ _ _ (List.mem_singleton.mpr rfl)

theorem mem_cascadeStep_of_ref (schema : List RefFieldDecl) (store : List StoredDoc)
    (s : List DocKey) (decl : RefFieldDecl) (d : StoredDoc) (ti : Nat)
    (hmem : (decl.target_collection, ti) ∈ s)
    (hdecl : decl ∈ schema) (hrule : decl.rule = .CASCADE)
    (hd : d ∈ store) (hcoll : d.collection = decl.owner_collection)
    (href : refersTo decl.field_name ti d = true) :
    d.key ∈ cascadeStep schema store s := by
  by_cases hk : d.key ∈ s
  · exact List.mem_append_left _ hk
  · apply List.mem_append_right
    refine List.mem_map.mpr ⟨d, List.mem_filter.mpr ⟨hd, ?_⟩, rfl⟩
    simp only [hk, decide_False, Bool.not_false, Bool.true_and]
    refine List.any_eq_true.mpr ⟨decl, hdecl, ?_⟩
    simp only [cascadeMatches, hrule, hcoll, decide_True, Bool.true_and]
    refine List.any_eq_true.mpr ⟨(decl.target_collection, ti), hmem, ?_⟩
    simp [href]

/-- C3: for every deletion of a record referenced by at least one existing
document through a DENY-ruled reference field, the delete aborts with
`ReferentialIntegrityError` and the stored state — the target's document and
the referring document included — is unchanged. -/
theorem deny_blocks_delete (schema : List RefFieldDecl) (store : List StoredDoc)
    (decl : RefFieldDecl) (dR : StoredDoc) (tc : String) (ti : Nat)
    (hdecl : decl ∈ schema) (hrule : decl.rule = .DENY)
    (htc : decl.target_collection = tc)
    (hR : dR ∈ store) (hRcoll : dR.collection = decl.owner_collection)
    (href : refersTo decl.field_name ti dR = true) :
    runDelete schema store (tc, ti) = .error .ReferentialIntegrityError
    ∧ deleteResultStore schema store (tc, ti) = store := by
  have hdv : denyViolated schema store (cascadeClosure schema store (tc, ti)) = true := by
    refine List.any_eq_true.mpr ⟨decl, hdecl, ?_⟩
    simp only [hrule, decide_True, Bool.true_and]
    refine List.any_eq_true.mpr ⟨(tc, ti), start_mem_cascadeClosure _ _ _, ?_⟩
    simp only [htc, decide_True, Bool.true_and]
    refine List.any_eq_true.mpr ⟨dR, hR, ?_⟩
    simp [hRcoll, href]
  refine ⟨?_, ?_⟩
  · simp [runDelete, hdv]
  · simp [deleteResultStore, runDelete, hdv]

theorem deny_blocks_delete_witness :
    runDelete [⟨"blog_post", "author", "person", .DENY⟩]
        [⟨"person", 1, []⟩, ⟨"blog_post", 2, [("author", some 1)]⟩] ("person", 1) =
      .error .ReferentialIntegrityError
    ∧ deleteResultStore [⟨"blog_post", "author", "person", .DENY⟩]
        [⟨"person", 1, []⟩, ⟨"blog_post", 2, [("author", some 1)]⟩] ("person", 1) =
      [⟨"person", 1, []⟩, ⟨"blog_post", 2, [("author", some 1)]⟩] :=
  deny_blocks_delete _ _ ⟨"blog_post", "author", "person", .DENY⟩
    ⟨"blog_post", 2, [("author", some 1)]⟩ "person" 1 (by decide) rfl rfl (by decide) rfl
    (by decide)

/-- C4: cascading deletion is transitive — deleting `X` referenced by `Y`
through a CASCADE-ruled field, with `Y` referenced by `Z` through a
CASCADE-ruled field, removes `X`, `Y` and `Z` from the store (no DENY rule
interfering). -/
theorem cascade_delete_transitive (schema : List RefFieldDecl) (store : List StoredDoc)
    (declYX declZY : RefFieldDecl) (dY dZ : StoredDoc) (cX : String) (xi : Nat)
    (hdYX : declYX ∈ schema) (hrYX : declYX.rule = .CASCADE)
    (htYX : declYX.target_collection = cX)
    (hdY : dY ∈ store) (hYcoll : dY.collection = declYX.owner_collection)
    (hrefYX : refersTo declYX.field_name xi dY = true)
    (hdZY : declZY ∈ schema) (hrZY : declZY.rule = .CASCADE)
    (htZY : declZY.target_collection = dY.collection)
    (hdZ : dZ ∈ store) (hZcoll : dZ.collection = declZY.owner_collection)
    (hrefZY : refersTo declZY.field_name dY.doc_id dZ = true)
    (hnodeny : ∀ decl ∈ schema, decl.rule ≠ .DENY)
    (hlen : 2 ≤ store.length) :
    runDelete schema store (cX, xi) = .ok (deleteResultStore schema store (cX, xi))
    ∧ ∀ d ∈ deleteResultStore schema store (cX, xi),
        d.key ≠ (cX, xi) ∧ d.key ≠ dY.key ∧ d.key ≠ dZ.key := by
  have hY1 : dY.key ∈ cascadeStep schema store [(cX, xi)] :=
    mem_cascadeStep_of_ref schema store _ declYX dY xi
      (by rw [htYX]; exact List.mem_singleton.mpr rfl) hdYX hrYX hdY hYcoll hrefYX
  have hZ2 : dZ.key ∈ cascadeStep schema store (cascadeStep schema store [(cX, xi)]) :=
    mem_cascadeStep_of_ref schema store _ declZY dZ dY.doc_id
      (by rw [htZY]; exact hY1) hdZY hrZY hdZ hZcoll hrefZY
  obtain ⟨m, hm⟩ : ∃ m, store.length = m + 2 := ⟨store.length - 2, by omega⟩
  have hiter : cascadeClosure schema store (cX, xi) =
      cascadeIter schema store m
        (cascadeStep schema store (cascadeStep schema store [(cX, xi)])) := by
    rw [cascadeClosure, hm]
    rfl
  have hX : (cX, xi) ∈ cascadeClosure schema store (cX, xi) :=
    start_mem_cascadeClosure _ _ _
  have hYs : dY.key ∈ cascadeClosure schema store (cX, xi) := by
    rw [hiter]
    exact mem_cascadeIter_of_mem _ _ _ _ _ (mem_cascadeStep_of_mem _ _ _ _ hY1)
  have hZs : dZ.key ∈ cascadeClosure schema store (cX, xi) := by
    rw [hiter]
    exact mem_cascadeIter_of_mem _ _ _ _ _ hZ2
  have hdv : denyViolated schema store (cascadeClosure schema store (cX, xi)) = false := by
    apply List.any_eq_false.mpr
    intro decl hdecl
    simp [hnodeny decl hdecl]
  have hrun : runDelete schema store (cX, xi) =
      .ok ((store.filter
        (fun d => !(decide (d.key ∈ cascadeClosure schema store (cX, xi))))).map
          (nullifyRefs schema (cascadeClosure schema store (cX, xi)))) := by
    simp [runDelete, hdv]
  refine ⟨?_, ?_⟩
  · simp [deleteResultStore, hrun]
  · intro d hd
    simp only [deleteResultStore, hrun] at hd
    obtain ⟨d0, hd0, rfl⟩ := List.mem_map.mp hd
    obtain ⟨hd0mem, hcond⟩ := List.mem_filter.mp hd0
    have hnot : d0.key ∉ cascadeClosure schema store (cX, xi) := by
      simpa using hcond
    have hkey : (nullifyRefs schema (cascadeClosure schema store (cX, xi)) d0).key = d0.key :=
      rfl
    refine ⟨?_, ?_, ?_⟩
    · intro heq; rw [hkey] at heq; exact hnot (heq ▸ hX)
    · intro heq; rw [hkey] at heq; exact hnot (heq ▸ hYs)
    · intro heq; rw [hkey] at heq; exact hnot (heq ▸ hZs)

theorem cascade_delete_transitive_witness :
    runDelete
        [⟨"blog_post", "author", "person", .CASCADE⟩,
         ⟨"comment", "post", "blog_post", .CASCADE⟩]
        [⟨"person", 1, []⟩, ⟨"blog_post", 2, [("author", some 1)]⟩,
         ⟨"comment", 3, [("post", some 2)]⟩] ("person", 1) =
      .ok [] :=
  ((cascade_delete_transitive
      [⟨"blog_post", "author", "person", .CASCADE⟩,
       ⟨"comment", "post", "blog_post", .CASCADE⟩]
      [⟨"person", 1, []⟩, ⟨"blog_post", 2, [("author", some 1)]⟩,
       ⟨"comment", 3, [("post", some 2)]⟩]
      ⟨"blog_post", "author", "person", .CASCADE⟩
      ⟨"comment", "post", "blog_post", .CASCADE⟩
      ⟨"blog_post", 2, [("author", some 1)]⟩
      ⟨"comment", 3, [("post", some 2)]⟩
      "person" 1 (by decide) rfl rfl (by decide) rfl (by decide)
      (by decide) rfl rfl (by decide) rfl (by decide) (by decide) (by decide)).1).trans
    (by rfl)

/-! ## Registry, query, update and connection lemmas -/

theorem hasDuplicate_of_get (fs : List FieldDescriptor) (i j : Nat)
    (hi : i < fs.length) (hj : j < fs.length) (hij : i < j)
    (hdup : (fs.get ⟨i, hi⟩).storage_name = (fs.get ⟨j, hj⟩).storage_name) :
    hasDuplicateStorageName fs = true := by
  induction fs generalizing i j with
  | nil => simp at hi
  | cons f fs ih =>
    match i, j with
    | 0, j'+1 =>
      have hj' : j' < fs.length := by simpa using hj
      simp only [hasDuplicateStorageName, Bool.or_eq_true]
      left
      refine List.any_eq_true.mpr ⟨fs.get ⟨j', hj'⟩, List.get_mem _ _ _, ?_⟩
      simpa using hdup.symm
    | i'+1, j'+1 =>
      have hi' : i' < fs.length := by simpa using hi
      have hj' : j' < fs.length := by simpa using hj
      simp only [hasDuplicateStorageName, Bool.or_eq_true]
      right
      exact ih i' j' hi' hj' (by omega) (by simpa using hdup)

/-- C7: declaring two fields on one record type that map to the same storage
name makes registration fail with the duplicate-storage-name schema
definition error, so no instance of the type can be created. -/
theorem register_duplicate_storage_name (td : TypeDescriptor) (i j : Nat)
    (hi : i < td.fields.length) (hj : j < td.fields.length) (hij : i < j)
    (hdup : (td.fields.get ⟨i, hi⟩).storage_name = (td.fields.get ⟨j, hj⟩).storage_name) :
    register td = .error .DuplicateStorageNameError := by
  simp [register, hasDuplicate_of_get td.fields i j hi hj hij hdup]

theorem register_duplicate_storage_name_witness :
    register ⟨"Foo", [⟨"name", "name", false, false⟩, ⟨"name2", "name", false, false⟩]⟩ =
      .error .DuplicateStorageNameError :=
  register_duplicate_storage_name
    ⟨"Foo", [⟨"name", "name", false, false⟩, ⟨"name2", "name", false, false⟩]⟩
    0 1 (by decide) (by decide) (by decide) rfl

/-- C8: a query against an ancestor type `A` returns every stored instance of
`A` and of every registered subtype of `A`, each carried as its exact stored
discriminated type, while every document returned by a query against an
intermediate type `M` descends from `M` — sibling branches of `M` are never
returned. -/
theorem polymorphic_query_correct (registry : List TypeChain) (store : List PolyDoc)
    (A M : TypeChain) :
    (∀ d ∈ store, d.discriminator ∈ registry → A <+: d.discriminator →
        d ∈ polymorphicQuery registry store A)
    ∧ (∀ d ∈ polymorphicQuery registry store M,
        d ∈ store ∧ M <+: d.discriminator ∧ d.discriminator ∈ registry) := by
  constructor
  · intro d hd hreg hpre
    refine List.mem_filter.mpr ⟨hd, ?_⟩
    simp [subtypesOf, List.mem_filter, hreg, hpre]
  · intro d hd
    obtain ⟨hd1, hd2⟩ := List.mem_filter.mp hd
    simp [subtypesOf, List.mem_filter] at hd2
    exact ⟨hd1, hd2.2, hd2.1⟩

theorem polymorphic_query_correct_witness :
    (⟨["Animal", "Mammal", "Human"], 4⟩ : PolyDoc) ∈ polymorphicQuery
      [["Animal"], ["Animal", "Fish"], ["Animal", "Mammal"],
       ["Animal", "Mammal", "Human"], ["Animal", "Mammal", "Dog"]]
      [⟨["Animal"], 1⟩, ⟨["Animal", "Fish"], 2⟩, ⟨["Animal", "Mammal"], 3⟩,
       ⟨["Animal", "Mammal", "Human"], 4⟩, ⟨["Animal", "Mammal", "Dog"], 5⟩]
      ["Animal", "Mammal"] :=
  (polymorphic_query_correct _ _ ["Animal", "Mammal"] ["Animal"]).1
    ⟨["Animal", "Mammal", "Human"], 4⟩ (by decide) (by decide) (by decide)

/-- C9: for every saved record, invoking the direct update operation with no
update operations supplied raises the empty-update operation error and leaves
the stored state unchanged. -/
theorem update_no_ops_raises (store : List (Nat × List (String × Value))) (target_id : Nat)
    (_hsaved : store.any (fun e => decide (e.1 = target_id)) = true) :
    updateDocument store target_id [] [] = .error .EmptyUpdateError
    ∧ updateResultStore store target_id [] [] = store :=
  ⟨rfl, rfl⟩

theorem update_no_ops_raises_witness :
    updateDocument [(1, [("name", Value.vstr "dcrosta")])] 1 [] [] =
      .error .EmptyUpdateError
    ∧ updateResultStore [(1, [("name", Value.vstr "dcrosta")])] 1 [] [] =
      [(1, [("name", Value.vstr "dcrosta")])] :=
  update_no_ops_raises [(1, [("name", Value.vstr "dcrosta")])] 1 rfl

/-- C10: for every alias with neither an open connection nor registered
settings, `get_connection` raises the undefined-alias `ConnectionError` and
leaves the connection state — the connection table included — unchanged,
while `get_connection` on any alias that does have registered settings
succeeds. -/
theorem get_connection_undefined_alias (st : ConnectionState) (a : String)
    (hconn : st.connections.lookup a = none)
    (hset : st.connection_settings.lookup a = none) :
    (get_connection st a false).1 = .error (.mk (notDefinedMessage a))
    ∧ (get_connection st a false).2 = st
    ∧ ∀ b s, st.connection_settings.lookup b = some s →
        ∃ c st2, get_connection st b false = (.ok c, st2) := by
  have h1 : get_connection st a false = (.error (.mk (notDefinedMessage a)), st) := by
    simp [get_connection, hconn, hset]
  refine ⟨by rw [h1], by rw [h1], ?_⟩
  intro b s hb
  cases hcb : st.connections.lookup b with
  | some c => exact ⟨c, st, by simp [get_connection, hcb]⟩
  | none =>
    exact ⟨⟨s⟩, { st with connections := (b, ⟨s⟩) :: st.connections },
      by simp [get_connection, hcb, hb]⟩

theorem get_connection_undefined_alias_witness :
    (get_connection
        ⟨[("testdb", ⟨"localhost", 27017, false, [], none, none, false⟩)], [], []⟩
        "default" false).1 =
      .error (.mk (notDefinedMessage "default"))
    ∧ (get_connection
        ⟨[("testdb", ⟨"localhost", 27017, false, [], none, none, false⟩)], [], []⟩
        "default" false).2 =
      ⟨[("testdb", ⟨"localhost", 27017, false, [], none, none, false⟩)], [], []⟩
    ∧ ∃ c st2, get_connection
        ⟨[("testdb", ⟨"localhost", 27017, false, [], none, none, false⟩)], [], []⟩
        "testdb" false = (.ok c, st2) :=
  have h := get_connection_undefined_alias
    ⟨[("testdb", ⟨"localhost", 27017, false, [], none, none, false⟩)], [], []⟩
    "default" rfl rfl
  ⟨h.1, h.2.1, h.2.2 "testdb" ⟨"localhost", 27017, false, [], none, none, false⟩ rfl⟩
